import Mathlib

/-!
A shallow embedding of the semantic-analysis phase found in
`lang/check/type.go`: the recursive type checker and constant evaluator for
the decoder DSL.  Arbitrary-precision integers (`math/big.Int`) are embedded
as `Int`; the `fmt.Errorf` failure sites are embedded as an error-kind
inductive; the in-place `SetMType` / `SetConstValue` annotations are embedded
as a returned `Annot` record.
-/

namespace PuffsCheck

/-- Error kinds, one per failure site of the checker (the Go code returns
formatted strings; the kind taxonomy follows the sites in `type.go`). -/
inductive Err where
  | duplicateDeclaration (name : Nat)
  | unboundIdentifier (name : Nat)
  | notBoolean
  | notNumeric
  | typeMismatch
  | notConstant
  | invalidLiteral (s : String)
  | divisionByZero
  | shiftOutOfRange
  | notAType
  | unsupportedConstruct
  | internalInconsistency
deriving DecidableEq, Repr

/-- Modelled from the spec: the builtin terminal type names.  The token
package (`t.ID.IsNumType`, `t.IDBool`) is not part of the given sources; the
spec describes "numeric types parameterized by bit width/signedness" plus
Boolean, and other identifiers are not type names. -/
inductive TName where
  | i8 | i16 | i32 | i64 | u8 | u16 | u32 | u64
  | bool
  | ident (id : Nat)
deriving DecidableEq, Repr

/-- Modelled from the spec: `t.ID.IsNumType`, true exactly for the builtin
bit-width/signedness numeric type names. -/
def TName.IsNumType : TName → Bool
  | .i8 | .i16 | .i32 | .i64 | .u8 | .u16 | .u32 | .u64 => true
  | _ => false

/-- Unary operators (`t.IDXUnaryPlus`, `t.IDXUnaryMinus`, `t.IDXUnaryNot`). -/
inductive UnOp where
  | plus | minus | unot
deriving DecidableEq, Repr

/-- Binary operators (the `t.IDXBinary*` tokens other than the `as` cast,
which takes a type expression on the right and is a separate `Expr` form). -/
inductive BinOp where
  | plus | minus | star | slash
  | shiftL | shiftR
  | amp | ampHat | pipe | hat
  | notEq | lessThan | lessEq | eqEq | greaterEq | greaterThan
  | andOp | orOp
deriving DecidableEq, Repr

/-- Assignment operators (`t.IDEq`, `t.IDShiftLEq`, `t.IDShiftREq`, and the
other compound assignment tokens, which `checkAssign` treats uniformly). -/
inductive AssignOp where
  | eq | plusEq | minusEq | starEq | slashEq
  | shiftLEq | shiftREq
  | ampEq | ampHatEq | pipeEq | hatEq
deriving DecidableEq, Repr

mutual
/-- Expressions (`a.Expr`).  Literals and identifiers carry their payload;
`underscoreE`, `thisE`, `call`, `index`, `slice`, `selector` and `assoc` are
the forms `checkExprOther` / `checkExprAssociativeOp` reject as unsupported,
so their children are irrelevant to checking and are omitted. -/
inductive Expr where
  | litNum (s : String)
  | ident (id : Nat)
  | litFalse
  | litTrue
  | underscoreE
  | thisE
  | call
  | index
  | slice
  | selector
  | unary (op : UnOp) (rhs : Expr)
  | binary (op : BinOp) (lhs rhs : Expr)
  | asCast (lhs : Expr) (tgt : TypeExpr)
  | assoc

/-- Type expressions (`a.TypeExpr`): the decorator chain (`ptr`, array with a
length expression) around a terminal name with optional refinement bounds
(`InclMin` / `ExclMax`, the list returned by `Bounds()`).  `idealNumber` is
the distinguished singleton `TypeExprIdealNumber`. -/
inductive TypeExpr where
  | idealNumber
  | named (name : TName) (inclMin exclMax : Option Expr)
  | ptr (inner : TypeExpr)
  | arr (len : Expr) (inner : TypeExpr)
end

deriving instance Repr for Expr, TypeExpr

mutual
/-- Structural equality on expressions (the `a.Expr` side of `a.TypeExpr.Eq`,
which compares nodes field by field). -/
def beqExpr : Expr → Expr → Bool
  | .litNum s1, .litNum s2 => s1 == s2
  | .ident i1, .ident i2 => i1 == i2
  | .litFalse, .litFalse => true
  | .litTrue, .litTrue => true
  | .underscoreE, .underscoreE => true
  | .thisE, .thisE => true
  | .call, .call => true
  | .index, .index => true
  | .slice, .slice => true
  | .selector, .selector => true
  | .unary o1 r1, .unary o2 r2 => o1 == o2 && beqExpr r1 r2
  | .binary o1 l1 r1, .binary o2 l2 r2 => o1 == o2 && beqExpr l1 l2 && beqExpr r1 r2
  | .asCast l1 t1, .asCast l2 t2 => beqExpr l1 l2 && beqTypeExpr t1 t2
  | .assoc, .assoc => true
  | _, _ => false

/-- Structural equality on optional bound expressions. -/
def beqOptExpr : Option Expr → Option Expr → Bool
  | none, none => true
  | some a, some b => beqExpr a b
  | _, _ => false

/-- Structural equality on type expressions, embedding `a.TypeExpr.Eq`. -/
def beqTypeExpr : TypeExpr → TypeExpr → Bool
  | .idealNumber, .idealNumber => true
  | .named n1 a1 b1, .named n2 a2 b2 => n1 == n2 && beqOptExpr a1 a2 && beqOptExpr b1 b2
  | .ptr i1, .ptr i2 => beqTypeExpr i1 i2
  | .arr l1 i1, .arr l2 i2 => beqExpr l1 l2 && beqTypeExpr i1 i2
  | _, _ => false
end

mutual
/-- Statements (`a.Node` kinds `KAssert`, `KAssign`, `KVar`, `KWhile`, `KIf`,
`KReturn`, `KBreak`, `KContinue`). -/
inductive Stmt where
  | assert (cond : Expr)
  | assign (op : AssignOp) (lhs rhs : Expr)
  | svar (name : Nat) (xtype : TypeExpr) (value : Option Expr)
  | swhile (cond : Option Expr) (body : List Stmt)
  | sif (chain : IfNode)
  | ret (value : Option Expr)
  | brk
  | cont

/-- An `a.If` node: condition, true/false bodies, and optional else-if. -/
inductive IfNode where
  | mk (cond : Expr) (bodyIfTrue bodyIfFalse : List Stmt) (elseIf : Option IfNode)
end

deriving instance Repr for Stmt, IfNode

/-- The per-function scope map (`TypeMap`), identifier to declared type. -/
def TypeMap := List (Nat × TypeExpr)

/-- Map lookup (`c.typeMap[name]`). -/
def tmLookup : TypeMap → Nat → Option TypeExpr
  | [], _ => none
  | (k, v) :: rest, n => if k = n then some v else tmLookup rest n

/-- The annotation `checkExpr` attaches to a node: `SetMType` and (when
folding happens) `SetConstValue`. -/
structure Annot where
  mtype : TypeExpr
  cv : Option Int
deriving Repr

/-- The singleton `TypeExprIdealNumber`. -/
def TypeExprIdealNumber : TypeExpr := .idealNumber

/-- The singleton `TypeExprBoolean` (the terminal name `bool`, unrefined). -/
def TypeExprBoolean : TypeExpr := .named .bool none none

/-- Modelled from the spec: `a.TypeExpr.IsNumType`, true for an undecorated
terminal whose name is a numeric type name (the Ideal-Number singleton is not
`IsNumType`; the helper `numeric` below adds it separately). -/
def TypeExpr.IsNumType : TypeExpr → Bool
  | .named name _ _ => name.IsNumType
  | _ => false

/-- True exactly for the `TypeExprIdealNumber` singleton (the Go code
compares against it with pointer equality). -/
def TypeExpr.isIdeal : TypeExpr → Bool
  | .idealNumber => true
  | _ => false

/-- Modelled from the spec: the checker helper `numeric`, true for the
Ideal-Number type and for concrete numeric types (an untyped literal is
"compatible with any concrete numeric type"). -/
def numeric : TypeExpr → Bool
  | .idealNumber => true
  | t => t.IsNumType

/-- Erase refinement bounds from every terminal name in a type. -/
def stripRefinements : TypeExpr → TypeExpr
  | .idealNumber => .idealNumber
  | .named name _ _ => .named name none none
  | .ptr inner => .ptr (stripRefinements inner)
  | .arr len inner => .arr len (stripRefinements inner)

/-- Modelled from the spec: `a.TypeExpr.EqIgnoringRefinements` — "equal apart
from bound annotations". -/
def TypeExpr.EqIgnoringRefinements (a b : TypeExpr) : Bool :=
  beqTypeExpr (stripRefinements a) (stripRefinements b)

/-- The value of a digit character, as in `math/big` scanning: `0`-`9`,
`a`-`z`, `A`-`Z`. -/
def digitVal (c : Char) : Option Nat :=
  if '0' ≤ c ∧ c ≤ '9' then some (c.toNat - '0'.toNat)
  else if 'a' ≤ c ∧ c ≤ 'z' then some (c.toNat - 'a'.toNat + 10)
  else if 'A' ≤ c ∧ c ≤ 'Z' then some (c.toNat - 'A'.toNat + 10)
  else none

/-- Scan a digit run in the given base, as `math/big.Int.SetString(s, 0)`
does after the sign and base prefix: underscores may separate successive
digits or the base prefix and a digit (`undOk` is true when the previous
character was a digit or the base prefix), and at least one digit is
required.  Returns the accumulated value when the whole run is valid. -/
def scanDigits (base : Nat) : List Char → Nat → Bool → Bool → Option Nat
  | [], acc, seenDigit, undOk =>
    if seenDigit ∧ undOk then some acc else none
  | c :: rest, acc, seenDigit, undOk =>
    if c = '_' then
      if undOk then scanDigits base rest acc seenDigit false else none
    else
      match digitVal c with
      | some d => if d < base then scanDigits base rest (acc * base + d) true true else none
      | none => none

/-- Parse an unsigned numeric literal with automatic base detection, as
`math/big.Int.SetString(s, 0)`: `0x`/`0X` hex, `0b`/`0B` binary, `0o`/`0O`
octal, a leading `0` octal, otherwise decimal. -/
def parseNumDigits : List Char → Option Nat
  | [] => none
  | c :: rest =>
    if c = '0' then
      match rest with
      | [] => some 0
      | c2 :: rest2 =>
        if c2 = 'x' ∨ c2 = 'X' then scanDigits 16 rest2 0 false true
        else if c2 = 'b' ∨ c2 = 'B' then scanDigits 2 rest2 0 false true
        else if c2 = 'o' ∨ c2 = 'O' then scanDigits 8 rest2 0 false true
        else scanDigits 8 rest 0 false true
    else scanDigits 10 (c :: rest) 0 false false

/-- Parse a numeric literal's characters: an optional sign, then
base-prefixed digits; `none` when the text is malformed. -/
def parseNumLitChars : List Char → Option Int
  | [] => none
  | c :: rest =>
    if c = '+' then (parseNumDigits rest).map (fun n => (n : Int))
    else if c = '-' then (parseNumDigits rest).map (fun n => -(n : Int))
    else (parseNumDigits (c :: rest)).map (fun n => (n : Int))

/-- Parse a numeric literal's source text to its integer value, embedding
`big.NewInt(0).SetString(s, 0)`. -/
def parseNumLit (s : String) : Option Int :=
  parseNumLitChars s.data

/-- `btoi`: booleans fold to the constants one and zero. -/
def btoi (b : Bool) : Int := if b then 1 else 0

/-- The constant `ffff` bounding shift amounts. -/
def ffff : Int := 65535

/-- `setConstValueBinaryOp`: constant folding for a binary operator over the
two operands' constant values.  Division by zero and out-of-range shift
amounts are errors; `big.Int.Div` implements Euclidean division, `Lsh` is
multiplication by a power of two, `Rsh` is an arithmetic (floor) shift, and
the bitwise operators act on the infinite two's-complement representation. -/
def setConstValueBinaryOp (op : BinOp) (l r : Int) : Except Err Int :=
  match op with
  | .plus => .ok (l + r)
  | .minus => .ok (l - r)
  | .star => .ok (l * r)
  | .slash =>
    if r = 0 then .error .divisionByZero
    else .ok (Int.ediv l r)
  | .shiftL =>
    if r < 0 ∨ ffff < r then .error .shiftOutOfRange
    else .ok (l * 2 ^ r.toNat)
  | .shiftR =>
    if r < 0 ∨ ffff < r then .error .shiftOutOfRange
    else .ok (Int.fdiv l (2 ^ r.toNat))
  | .amp => .ok (Int.land l r)
  | .ampHat => .ok (Int.ldiff l r)
  | .pipe => .ok (Int.lor l r)
  | .hat => .ok (Int.xor l r)
  | .notEq => .ok (btoi (decide (l ≠ r)))
  | .lessThan => .ok (btoi (decide (l < r)))
  | .lessEq => .ok (btoi (decide (l ≤ r)))
  | .eqEq => .ok (btoi (decide (l = r)))
  | .greaterEq => .ok (btoi (decide (r ≤ l)))
  | .greaterThan => .ok (btoi (decide (r < l)))
  | .andOp => .ok (btoi (decide (l ≠ 0 ∧ r ≠ 0)))
  | .orOp => .ok (btoi (decide (l ≠ 0 ∨ r ≠ 0)))

/-- The `comparisonOps` table. -/
def isComparisonOp : BinOp → Bool
  | .notEq | .lessThan | .lessEq | .eqEq | .greaterEq | .greaterThan => true
  | _ => false

/-- The operators whose arms are special-cased as `IDXBinaryShiftL` /
`IDXBinaryShiftR`. -/
def isShiftOp : BinOp → Bool
  | .shiftL | .shiftR => true
  | _ => false

/-- The operators special-cased as `IDXBinaryNotEq` / `IDXBinaryEqEq`. -/
def isEqOp : BinOp → Bool
  | .notEq | .eqEq => true
  | _ => false

/-- The operators special-cased as `IDXBinaryAnd` / `IDXBinaryOr`. -/
def isBoolOp : BinOp → Bool
  | .andOp | .orOp => true
  | _ => false

/-- The first `switch op` of `checkExprBinaryOp`: equality operators accept
any operand kinds, logical and/or require both operands to be the Boolean
singleton, every other operator requires both operands numeric. -/
def binOpGate1 (op : BinOp) (lTyp rTyp : TypeExpr) : Except Err Unit :=
  if isEqOp op then .ok ()
  else if isBoolOp op then
    if ¬ beqTypeExpr lTyp TypeExprBoolean then .error .notBoolean
    else if ¬ beqTypeExpr rTyp TypeExprBoolean then .error .notBoolean
    else .ok ()
  else
    if ¬ numeric lTyp then .error .notNumeric
    else if ¬ numeric rTyp then .error .notNumeric
    else .ok ()

/-- The second `switch op` of `checkExprBinaryOp`: for the shift operators an
Ideal-Number left operand may not be shifted by a non-Ideal-Number right
operand; every other operator requires the operand types to be equal ignoring
refinements unless one side is Ideal-Number. -/
def binOpGate2 (op : BinOp) (lTyp rTyp : TypeExpr) : Except Err Unit :=
  if isShiftOp op then
    if lTyp.isIdeal ∧ ¬ rTyp.isIdeal then .error .typeMismatch
    else .ok ()
  else
    if ¬ lTyp.EqIgnoringRefinements rTyp ∧ ¬ lTyp.isIdeal ∧ ¬ rTyp.isIdeal
    then .error .typeMismatch
    else .ok ()

/-- The result-type annotation at the end of `checkExprBinaryOp`: comparisons
yield the Boolean singleton, otherwise the left type when it is not
Ideal-Number, otherwise the right type. -/
def binOpResultType (op : BinOp) (lTyp rTyp : TypeExpr) : TypeExpr :=
  if isComparisonOp op then TypeExprBoolean
  else if ¬ lTyp.isIdeal then lTyp
  else rTyp

/-- The body of `checkExprBinaryOp` after both operands have been checked:
the two gates, then constant folding when both operands carry constant
values, then the result-type annotation. -/
def checkBinOpRest (op : BinOp) (la ra : Annot) : Except Err Annot :=
  match binOpGate1 op la.mtype ra.mtype with
  | .error e => .error e
  | .ok _ =>
    match binOpGate2 op la.mtype ra.mtype with
    | .error e => .error e
    | .ok _ =>
      match la.cv, ra.cv with
      | some l, some r =>
        match setConstValueBinaryOp op l r with
        | .error e => .error e
        | .ok v => .ok ⟨binOpResultType op la.mtype ra.mtype, some v⟩
      | _, _ => .ok ⟨binOpResultType op la.mtype ra.mtype, none⟩

/-- The body of `checkExprUnaryOp` after the operand has been checked:
unary plus/minus need a numeric operand and preserve (resp. negate) its
constant value; `not` needs the Boolean singleton and folds by logical
negation. -/
def checkUnOpRest (op : UnOp) (ra : Annot) : Except Err Annot :=
  match op with
  | .plus =>
    if ¬ numeric ra.mtype then .error .notNumeric
    else .ok ⟨ra.mtype, ra.cv⟩
  | .minus =>
    if ¬ numeric ra.mtype then .error .notNumeric
    else .ok ⟨ra.mtype, ra.cv.map (fun v => -v)⟩
  | .unot =>
    if ¬ beqTypeExpr ra.mtype TypeExprBoolean then .error .notBoolean
    else .ok ⟨TypeExprBoolean, ra.cv.map (fun v => btoi (decide (v = 0)))⟩

mutual
/-- `checkExpr`: dispatch on the operator-arity class of the node. -/
def checkExpr (tm : TypeMap) (e : Expr) : Except Err Annot :=
  match e with
  | .unary op rhs =>
    match checkExpr tm rhs with
    | .error err => .error err
    | .ok ra => checkUnOpRest op ra
  | .binary op lhs rhs =>
    match checkExpr tm lhs with
    | .error err => .error err
    | .ok la =>
      match checkExpr tm rhs with
      | .error err => .error err
      | .ok ra => checkBinOpRest op la ra
  | .asCast lhs tgt =>
    match checkExpr tm lhs with
    | .error err => .error err
    | .ok la =>
      match checkTypeExpr tm tgt with
      | .error err => .error err
      | .ok _ =>
        if numeric la.mtype ∧ tgt.IsNumType then .ok ⟨tgt, none⟩
        else .error .typeMismatch
  | .assoc => .error .unsupportedConstruct
  | .litNum s =>
    match parseNumLit s with
    | some v => .ok ⟨TypeExprIdealNumber, some v⟩
    | none => .error (.invalidLiteral s)
  | .ident id =>
    match tmLookup tm id with
    | some typ => .ok ⟨typ, none⟩
    | none => .error (.unboundIdentifier id)
  | .litFalse => .ok ⟨TypeExprBoolean, some 0⟩
  | .litTrue => .ok ⟨TypeExprBoolean, some 1⟩
  | .underscoreE => .error .unsupportedConstruct
  | .thisE => .error .unsupportedConstruct
  | .call => .error .unsupportedConstruct
  | .index => .error .unsupportedConstruct
  | .slice => .error .unsupportedConstruct
  | .selector => .error .unsupportedConstruct

/-- `checkTypeExpr`: walk the decorator chain; a terminal numeric/Boolean
name checks its refinement bounds, a pointer is a no-op, an array length
must check and fold to a constant; any other terminal is not a type. -/
def checkTypeExpr (tm : TypeMap) (t : TypeExpr) : Except Err Unit :=
  match t with
  | .idealNumber => .error .notAType
  | .named name inclMin exclMax =>
    if name.IsNumType ∨ name = TName.bool then
      match checkBound tm inclMin with
      | .error err => .error err
      | .ok _ => checkBound tm exclMax
    else .error .notAType
  | .ptr inner => checkTypeExpr tm inner
  | .arr len inner =>
    match checkExpr tm len with
    | .error err => .error err
    | .ok ann =>
      if ann.cv = none then .error .notConstant
      else checkTypeExpr tm inner

/-- One entry of the `Bounds()` loop of `checkTypeExpr`: a nil bound is
skipped; otherwise the bound must check and carry a constant value. -/
def checkBound (tm : TypeMap) (b : Option Expr) : Except Err Unit :=
  match b with
  | none => .ok ()
  | some bound =>
    match checkExpr tm bound with
    | .error err => .error err
    | .ok ann =>
      if ann.cv = none then .error .notConstant
      else .ok ()
end

/-- `checkAssign`: both sides are checked; `=` accepts an Ideal-Number right
side into a numeric left side or types equal ignoring refinements; compound
assignments need a numeric assignee, shifts need a numeric shift amount, and
the rest need an Ideal-Number right side or compatible types. -/
def checkAssign (tm : TypeMap) (op : AssignOp) (lhs rhs : Expr) : Except Err Unit :=
  match checkExpr tm lhs with
  | .error err => .error err
  | .ok la =>
    match checkExpr tm rhs with
    | .error err => .error err
    | .ok ra =>
      let lTyp := la.mtype
      let rTyp := ra.mtype
      if op = .eq then
        if (rTyp.isIdeal ∧ lTyp.IsNumType) ∨ lTyp.EqIgnoringRefinements rTyp then .ok ()
        else .error .typeMismatch
      else if ¬ lTyp.IsNumType then .error .notNumeric
      else if op = .shiftLEq ∨ op = .shiftREq then
        if rTyp.IsNumType then .ok () else .error .notNumeric
      else if rTyp.isIdeal ∨ lTyp.EqIgnoringRefinements rTyp then .ok ()
      else .error .typeMismatch

/-- A condition that must check to the Boolean singleton (the repeated
`cond.MType().Eq(TypeExprBoolean)` test of `checkStatement`). -/
def checkCondBoolean (tm : TypeMap) (cond : Expr) : Except Err Unit :=
  match checkExpr tm cond with
  | .error err => .error err
  | .ok ann =>
    if beqTypeExpr ann.mtype TypeExprBoolean then .ok ()
    else .error .notBoolean

mutual
/-- `checkStatement`: statement-level checking (the scope map has already
been populated by `checkVars`, so a `var` statement here only checks its
initializer expression; its declared type was validated by `checkVars`). -/
def checkStatement (tm : TypeMap) (s : Stmt) : Except Err Unit :=
  match s with
  | .assert cond => checkCondBoolean tm cond
  | .assign op lhs rhs => checkAssign tm op lhs rhs
  | .svar _ _ value =>
    match value with
    | none => .ok ()
    | some v =>
      match checkExpr tm v with
      | .error err => .error err
      | .ok _ => .ok ()
  | .swhile cond body =>
    match (match cond with
           | none => Except.ok ()
           | some cnd => checkCondBoolean tm cnd) with
    | .error err => .error err
    | .ok _ => checkStmtList tm body
  | .sif chain => checkIfNode tm chain
  | .ret value =>
    match value with
    | none => .ok ()
    | some v =>
      match checkExpr tm v with
      | .error err => .error err
      | .ok _ => .ok ()
  | .brk => .ok ()
  | .cont => .ok ()

/-- Sequential checking of a statement list, failing on the first error. -/
def checkStmtList (tm : TypeMap) (l : List Stmt) : Except Err Unit :=
  match l with
  | [] => .ok ()
  | s :: rest =>
    match checkStatement tm s with
    | .error err => .error err
    | .ok _ => checkStmtList tm rest

/-- The `for o := n.If(); o != nil; o = o.ElseIf()` loop of `checkStatement`:
each condition in the chain must check to Boolean, and both bodies of each
link are checked. -/
def checkIfNode (tm : TypeMap) (node : IfNode) : Except Err Unit :=
  match node with
  | .mk cond bodyIfTrue bodyIfFalse elseIf =>
    match checkCondBoolean tm cond with
    | .error err => .error err
    | .ok _ =>
      match checkStmtList tm bodyIfTrue with
      | .error err => .error err
      | .ok _ =>
        match checkStmtList tm bodyIfFalse with
        | .error err => .error err
        | .ok _ => checkIfNodeOpt tm elseIf

/-- The optional else-if link of the `checkStatement` chain walk. -/
def checkIfNodeOpt (tm : TypeMap) : Option IfNode → Except Err Unit
  | none => .ok ()
  | some next => checkIfNode tm next
end

mutual
/-- `checkVars`: the scope-map population pass.  A `var` node is rejected
when its name is already mapped, otherwise its declared type is validated
and the name is inserted; every other node kind recurses into its sub-lists
of statements (`Raw().SubLists()`), hoisting nested declarations.  The pass
threads the growing map. -/
def checkVars (tm : TypeMap) (s : Stmt) : Except Err TypeMap :=
  match s with
  | .svar name xtype _ =>
    if (tmLookup tm name).isSome then .error (.duplicateDeclaration name)
    else
      match checkTypeExpr tm xtype with
      | .error err => .error err
      | .ok _ => .ok ((name, xtype) :: tm)
  | .swhile _ body => checkVarsList tm body
  | .sif chain => checkVarsIf tm chain
  | _ => .ok tm

/-- `checkVars` over a statement list, threading the map. -/
def checkVarsList (tm : TypeMap) (l : List Stmt) : Except Err TypeMap :=
  match l with
  | [] => .ok tm
  | s :: rest =>
    match checkVars tm s with
    | .error err => .error err
    | .ok tm2 => checkVarsList tm2 rest

/-- `checkVars` over an `If` node: `Raw().SubLists()` contains the node's
two statement lists (`BodyIfTrue`, `BodyIfFalse`) but not the node-valued
`ElseIf` link (only `checkStatement` walks the chain explicitly), so the
collection pass does not descend into the else-if. -/
def checkVarsIf (tm : TypeMap) (node : IfNode) : Except Err TypeMap :=
  match node with
  | .mk _ bodyIfTrue bodyIfFalse _ =>
    match checkVarsList tm bodyIfTrue with
    | .error err => .error err
    | .ok tm2 => checkVarsList tm2 bodyIfFalse
end

/-- The mathematical (positional) value of a digit sequence, most significant
digit first, in a given base.  Used to state literal-parsing correctness. -/
def digitsVal (base : Nat) (l : List Nat) : Nat :=
  l.foldl (fun a d => a * base + d) 0

/-- Render a digit sequence as source-text characters (`0`-`9`, `a`-`f`). -/
def renderDigits (l : List Nat) : List Char :=
  l.map Nat.digitChar

mutual
/-- The conditions of an if/else-if chain, in source order. -/
def chainConds : IfNode → List Expr
  | .mk cond _ _ elseIf => cond :: chainCondsOpt elseIf

/-- `chainConds` of the optional else-if link. -/
def chainCondsOpt : Option IfNode → List Expr
  | none => []
  | some next => chainConds next
end

mutual
/-- The names declared by `var` statements in the region the collection pass
visits: the statement itself and its nested statement lists (`while` bodies
and `if` true/false bodies, at any depth), but not chained else-if links. -/
def declaredVars : Stmt → List Nat
  | .svar name _ _ => [name]
  | .swhile _ body => declaredVarsList body
  | .sif chain => declaredVarsIf chain
  | _ => []

/-- `declaredVars` over a statement list. -/
def declaredVarsList : List Stmt → List Nat
  | [] => []
  | s :: rest => declaredVars s ++ declaredVarsList rest

/-- `declaredVars` over an `If` node: the two body lists only, mirroring the
`SubLists`-based traversal (the else-if link is not visited). -/
def declaredVarsIf : IfNode → List Nat
  | .mk _ bodyIfTrue bodyIfFalse _ =>
    declaredVarsList bodyIfTrue ++ declaredVarsList bodyIfFalse
end

/-! ### Shared inversion lemmas -/

/-- A successful binary check passed both gates, and its annotation's type is
the computed result type. -/
theorem checkBinOpRest_ok_inv {op : BinOp} {la ra ann : Annot}
    (h : checkBinOpRest op la ra = .ok ann) :
    binOpGate1 op la.mtype ra.mtype = .ok () ∧
    binOpGate2 op la.mtype ra.mtype = .ok () ∧
    ann.mtype = binOpResultType op la.mtype ra.mtype := by
  unfold checkBinOpRest at h
  cases h1 : binOpGate1 op la.mtype ra.mtype with
  | error e => simp only [h1] at h; cases h
  | ok u =>
    simp only [h1] at h
    cases h2 : binOpGate2 op la.mtype ra.mtype with
    | error e => simp only [h2] at h; cases h
    | ok u2 =>
      simp only [h2] at h
      cases u; cases u2
      refine ⟨rfl, rfl, ?_⟩
      cases hl : la.cv with
      | none =>
        simp only [hl] at h
        cases h
        rfl
      | some l =>
        cases hrv : ra.cv with
        | none =>
          simp only [hl, hrv] at h
          cases h
          rfl
        | some r =>
          simp only [hl, hrv] at h
          cases hs : setConstValueBinaryOp op l r with
          | error e => simp only [hs] at h; cases h
          | ok v =>
            simp only [hs] at h
            cases h
            rfl

/-- A successful non-shift binary check has compatible operand types or an
Ideal-Number side; a successful shift never shifts Ideal by non-Ideal. -/
theorem binOpGate2_ok_inv {op : BinOp} {lTyp rTyp : TypeExpr}
    (h : binOpGate2 op lTyp rTyp = .ok ()) :
    (isShiftOp op = false →
      (lTyp.EqIgnoringRefinements rTyp ∨ lTyp.isIdeal ∨ rTyp.isIdeal)) ∧
    (isShiftOp op = true → ¬(lTyp.isIdeal ∧ ¬ rTyp.isIdeal)) := by
  unfold binOpGate2 at h
  constructor <;> intro hsv <;> rw [hsv] at h <;> simp only [Bool.false_eq_true,
    if_false, if_true] at h
  · split at h
    · cases h
    · rename_i hcond
      by_cases h1 : lTyp.EqIgnoringRefinements rTyp
      · exact Or.inl h1
      · by_cases h2 : lTyp.isIdeal
        · exact Or.inr (Or.inl h2)
        · by_cases h3 : rTyp.isIdeal
          · exact Or.inr (Or.inr h3)
          · exact absurd ⟨h1, h2, h3⟩ hcond
  · split at h
    · cases h
    · rename_i hcond
      exact hcond

/-- The first gate succeeds for an operator that is neither an equality nor a
logical operator whenever both operand types are numeric. -/
theorem binOpGate1_ok_of_numeric {op : BinOp} {lTyp rTyp : TypeExpr}
    (he : isEqOp op = false) (hb : isBoolOp op = false)
    (hl : numeric lTyp) (hr : numeric rTyp) :
    binOpGate1 op lTyp rTyp = .ok () := by
  unfold binOpGate1
  rw [he, hb]
  simp [hl, hr]

/-- The second gate succeeds for a non-shift operator whenever the operand
types are compatible ignoring refinements or one side is Ideal-Number. -/
theorem binOpGate2_ok_of_compat {op : BinOp} {lTyp rTyp : TypeExpr}
    (hs : isShiftOp op = false)
    (h : lTyp.EqIgnoringRefinements rTyp ∨ lTyp.isIdeal ∨ rTyp.isIdeal) :
    binOpGate2 op lTyp rTyp = .ok () := by
  unfold binOpGate2
  rw [hs]
  simp only [Bool.false_eq_true, if_false]
  rw [if_neg]
  tauto

/-! ### Claims -/

/-- C10: constant folding of division uses Euclidean semantics — for constant
operands `l` and `r` with `r` nonzero the attached quotient `q` is the unique
integer with `l = q*r + m` and `0 ≤ m < |r|`, and folding `(-7) / 2` yields
`-4`, not `-3`. -/
theorem c10_division_is_euclidean :
    (∀ l r : Int, r ≠ 0 →
      ∃ q m : Int, setConstValueBinaryOp .slash l r = .ok q ∧
        l = q * r + m ∧ 0 ≤ m ∧ m < |r| ∧
        ∀ q' m' : Int, l = q' * r + m' → 0 ≤ m' → m' < |r| → q' = q) ∧
    setConstValueBinaryOp .slash (-7) 2 = .ok (-4) := by
  constructor
  · intro l r hr
    have hadd := Int.ediv_add_emod l r
    rw [Int.mul_comm] at hadd
    have hq : l = l / r * r + l % r := by linarith
    have hm0 : 0 ≤ l % r := Int.emod_nonneg l hr
    have hlt : l % r < |r| := by
      rcases lt_trichotomy r 0 with hneg | hz | hpos
      · rw [abs_of_neg hneg, ← Int.emod_neg]
        exact Int.emod_lt_of_pos l (by linarith)
      · exact absurd hz hr
      · rw [abs_of_pos hpos]
        exact Int.emod_lt_of_pos l hpos
    refine ⟨l / r, l % r, ?_, hq, hm0, hlt, ?_⟩
    · simp only [setConstValueBinaryOp, if_neg hr]
      rfl
    · intro q' m' heq hm0' hlt'
      by_contra hne
      have h1 : q' - l / r ≠ 0 := sub_ne_zero.mpr hne
      have h2 : (1 : Int) ≤ |q' - l / r| := Int.one_le_abs h1
      have e1 : q' * r = l - m' := by linarith
      have e2 : l / r * r = l - l % r := by linarith
      have h3 : (q' - l / r) * r = l % r - m' := by
        calc (q' - l / r) * r = q' * r - l / r * r := by ring
        _ = (l - m') - (l - l % r) := by rw [e1, e2]
        _ = l % r - m' := by ring
      have h4 : |l % r - m'| < |r| := by
        rw [abs_lt]
        constructor <;> linarith
      have h5 : |r| ≤ |(q' - l / r) * r| := by
        rw [abs_mul]
        calc |r| = 1 * |r| := (one_mul _).symm
        _ ≤ |q' - l / r| * |r| := mul_le_mul_of_nonneg_right h2 (abs_nonneg r)
      rw [h3] at h5
      exact absurd h4 (not_lt.mpr h5)
  · rfl

/-- C10 witness: the Euclidean characterization evaluated at `(-7) / 2`. -/
theorem c10_witness :
    ∃ q m : Int, setConstValueBinaryOp .slash (-7) 2 = .ok q ∧
      (-7 : Int) = q * 2 + m ∧ 0 ≤ m ∧ m < |(2 : Int)| ∧
      ∀ q' m' : Int, (-7 : Int) = q' * 2 + m' → 0 ≤ m' → m' < |(2 : Int)| → q' = q :=
  c10_division_is_euclidean.1 (-7) 2 (by decide)

/-- C1 counterexample: in scope `x : u8`, the expression `x / 0` has a
constant-zero divisor (the literal `0` checks to constant value `0`), yet
type checking succeeds — constant folding is skipped because the dividend
carries no constant value — so the claim "fails regardless of operand types"
is false as stated. -/
theorem c1_counterexample :
    checkExpr [(0, TypeExpr.named .u8 none none)] (.litNum "0") =
      .ok ⟨TypeExprIdealNumber, some 0⟩ ∧
    checkExpr [(0, TypeExpr.named .u8 none none)]
        (.binary .slash (.ident 0) (.litNum "0")) =
      .ok ⟨TypeExpr.named .u8 none none, none⟩ :=
  ⟨rfl, rfl⟩

/-- C1 (amended): a binary division whose operands both fold to constants and
pass the operand-kind and compatibility gates (both numeric, type-equal
ignoring refinements or one side Ideal-Number) fails with DivisionByZero when
the divisor's constant is zero, and no annotation is attached (the node
checks to an error, not to a value); the same error surfaces when the
division appears inside a refinement bound of a type expression. -/
theorem c1_constant_division_by_zero :
    (∀ (tm : TypeMap) (lhs rhs : Expr) (la ra : Annot) (l : Int),
      checkExpr tm lhs = .ok la → checkExpr tm rhs = .ok ra →
      la.cv = some l → ra.cv = some 0 →
      numeric la.mtype → numeric ra.mtype →
      (la.mtype.EqIgnoringRefinements ra.mtype ∨ la.mtype.isIdeal ∨ ra.mtype.isIdeal) →
      checkExpr tm (.binary .slash lhs rhs) = .error .divisionByZero) ∧
    (∀ (tm : TypeMap) (name : TName) (emax : Option Expr),
      (name.IsNumType ∨ name = TName.bool) →
      checkTypeExpr tm
          (.named name (some (.binary .slash (.litNum "7") (.litNum "0"))) emax) =
        .error .divisionByZero) := by
  constructor
  · intro tm lhs rhs la ra l h1 h2 hcv1 hcv2 hn1 hn2 hcompat
    have hg1 : binOpGate1 .slash la.mtype ra.mtype = .ok () :=
      binOpGate1_ok_of_numeric rfl rfl hn1 hn2
    have hg2 : binOpGate2 .slash la.mtype ra.mtype = .ok () :=
      binOpGate2_ok_of_compat rfl hcompat
    simp only [checkExpr, h1, h2, checkBinOpRest, hg1, hg2, hcv1, hcv2,
      setConstValueBinaryOp]
    simp
  · intro tm name emax hname
    have hbound : checkExpr tm (.binary .slash (.litNum "7") (.litNum "0")) =
        .error .divisionByZero := rfl
    simp only [checkTypeExpr, checkBound, hbound, if_pos hname]

/-- C1 witness: `7 / 0` as an expression and inside a refinement bound, both
rejected with DivisionByZero. -/
theorem c1_witness :
    checkExpr [] (.binary .slash (.litNum "7") (.litNum "0")) =
      .error .divisionByZero ∧
    checkTypeExpr [] (.named .u8 (some (.binary .slash (.litNum "7") (.litNum "0"))) none) =
      .error .divisionByZero :=
  ⟨c1_constant_division_by_zero.1 [] (.litNum "7") (.litNum "0")
      ⟨TypeExprIdealNumber, some 7⟩ ⟨TypeExprIdealNumber, some 0⟩ 7
      rfl rfl rfl rfl rfl rfl (Or.inr (Or.inl rfl)),
    c1_constant_division_by_zero.2 [] .u8 none (Or.inl rfl)⟩

/-- C2 counterexample: in scope `x : u8`, `y : u16`, the shift `x << y`
checks successfully although `u8` and `u16` are not type-equal ignoring
refinements and neither operand is Ideal-Number — the compatibility gate
does not apply to shift operators, so the claim is false as stated. -/
theorem c2_counterexample :
    checkExpr [(0, TypeExpr.named .u8 none none), (1, TypeExpr.named .u16 none none)]
        (.binary .shiftL (.ident 0) (.ident 1)) =
      .ok ⟨TypeExpr.named .u8 none none, none⟩ ∧
    TypeExpr.EqIgnoringRefinements (TypeExpr.named .u8 none none)
        (TypeExpr.named .u16 none none) = false ∧
    TypeExpr.isIdeal (TypeExpr.named .u8 none none) = false ∧
    TypeExpr.isIdeal (TypeExpr.named .u16 none none) = false :=
  ⟨rfl, rfl, rfl, rfl⟩

/-- C2 (amended): for every binary operator other than `as` and other than
the shifts, a successful check implies the operand types are type-equal
ignoring refinements or at least one is Ideal-Number; for the shift
operators the compatibility gate is replaced by the rule that an
Ideal-Number left operand is never shifted by a non-Ideal-Number right
operand. -/
theorem c2_binary_compatibility :
    ∀ (tm : TypeMap) (op : BinOp) (lhs rhs : Expr) (ann la ra : Annot),
      checkExpr tm (.binary op lhs rhs) = .ok ann →
      checkExpr tm lhs = .ok la → checkExpr tm rhs = .ok ra →
      (isShiftOp op = false →
        (la.mtype.EqIgnoringRefinements ra.mtype ∨ la.mtype.isIdeal ∨ ra.mtype.isIdeal)) ∧
      (isShiftOp op = true → ¬(la.mtype.isIdeal ∧ ¬ ra.mtype.isIdeal)) := by
  intro tm op lhs rhs ann la ra h hl hr
  simp only [checkExpr, hl, hr] at h
  exact binOpGate2_ok_inv (checkBinOpRest_ok_inv h).2.1

/-- C2 witness: the gate facts instantiated at `1 + 2` (both operands
Ideal-Number). -/
theorem c2_witness :
    (isShiftOp .plus = false →
      (TypeExpr.EqIgnoringRefinements TypeExprIdealNumber TypeExprIdealNumber ∨
        TypeExpr.isIdeal TypeExprIdealNumber ∨ TypeExpr.isIdeal TypeExprIdealNumber)) ∧
    (isShiftOp .plus = true →
      ¬(TypeExpr.isIdeal TypeExprIdealNumber ∧ ¬ TypeExpr.isIdeal TypeExprIdealNumber)) :=
  c2_binary_compatibility [] .plus (.litNum "1") (.litNum "2")
    ⟨TypeExprIdealNumber, some 3⟩ ⟨TypeExprIdealNumber, some 1⟩
    ⟨TypeExprIdealNumber, some 2⟩ rfl rfl rfl

/-- The second gate succeeds for a shift operator whenever the left operand
is not an Ideal-Number shifted by a non-Ideal-Number. -/
theorem binOpGate2_ok_shift {op : BinOp} {lTyp rTyp : TypeExpr}
    (hs : isShiftOp op = true)
    (h : ¬(lTyp.isIdeal ∧ ¬ rTyp.isIdeal)) :
    binOpGate2 op lTyp rTyp = .ok () := by
  unfold binOpGate2
  rw [hs]
  simp only [if_true]
  rw [if_neg h]

/-- C3: for a shift whose operands both fold to constants and pass the gates
(both numeric, and not Ideal-shifted-by-non-Ideal), a shift amount outside
`[0, 65535]` is rejected with ShiftOutOfRange, and a shift amount inside the
range is folded (left shift multiplies by a power of two, right shift is the
arithmetic floor shift). -/
theorem c3_shift_range :
    ∀ (tm : TypeMap) (op : BinOp) (lhs rhs : Expr) (la ra : Annot) (l r : Int),
      (op = .shiftL ∨ op = .shiftR) →
      checkExpr tm lhs = .ok la → checkExpr tm rhs = .ok ra →
      la.cv = some l → ra.cv = some r →
      numeric la.mtype → numeric ra.mtype →
      ¬(la.mtype.isIdeal ∧ ¬ ra.mtype.isIdeal) →
      ((r < 0 ∨ 65535 < r) →
        checkExpr tm (.binary op lhs rhs) = .error .shiftOutOfRange) ∧
      (0 ≤ r → r ≤ 65535 →
        checkExpr tm (.binary op lhs rhs) =
          .ok ⟨binOpResultType op la.mtype ra.mtype,
            some (if op = .shiftL then l * 2 ^ r.toNat else Int.fdiv l (2 ^ r.toNat))⟩) := by
  intro tm op lhs rhs la ra l r hop h1 h2 hcv1 hcv2 hn1 hn2 hshift
  have hse : isShiftOp op = true := by rcases hop with h | h <;> rw [h] <;> rfl
  have hee : isEqOp op = false := by rcases hop with h | h <;> rw [h] <;> rfl
  have hbe : isBoolOp op = false := by rcases hop with h | h <;> rw [h] <;> rfl
  have hg1 : binOpGate1 op la.mtype ra.mtype = .ok () :=
    binOpGate1_ok_of_numeric hee hbe hn1 hn2
  have hg2 : binOpGate2 op la.mtype ra.mtype = .ok () :=
    binOpGate2_ok_shift hse hshift
  constructor
  · intro hout
    have hout' : r < 0 ∨ ffff < r := by unfold ffff; exact_mod_cast hout
    rcases hop with h | h <;> subst h <;>
      simp only [checkExpr, h1, h2, checkBinOpRest, hg1, hg2, hcv1, hcv2,
        setConstValueBinaryOp, if_pos hout']
  · intro hlo hhi
    have hin : ¬(r < 0 ∨ ffff < r) := by unfold ffff; omega
    rcases hop with h | h <;> subst h <;>
      simp only [checkExpr, h1, h2, checkBinOpRest, hg1, hg2, hcv1, hcv2,
        setConstValueBinaryOp, if_neg hin] <;> simp

/-- C3 witness: `1 << 70000` is rejected with ShiftOutOfRange; `1 << 3`
folds to `8`. -/
theorem c3_witness :
    checkExpr [] (.binary .shiftL (.litNum "1") (.litNum "70000")) =
      .error .shiftOutOfRange ∧
    checkExpr [] (.binary .shiftL (.litNum "1") (.litNum "3")) =
      .ok ⟨TypeExprIdealNumber, some 8⟩ := by
  constructor
  · exact (c3_shift_range [] .shiftL (.litNum "1") (.litNum "70000")
      ⟨TypeExprIdealNumber, some 1⟩ ⟨TypeExprIdealNumber, some 70000⟩ 1 70000
      (Or.inl rfl) rfl rfl rfl rfl rfl rfl (by decide)).1 (by norm_num)
  · have h := (c3_shift_range [] .shiftL (.litNum "1") (.litNum "3")
      ⟨TypeExprIdealNumber, some 1⟩ ⟨TypeExprIdealNumber, some 3⟩ 1 3
      (Or.inl rfl) rfl rfl rfl rfl rfl rfl (by decide)).2 (by norm_num) (by norm_num)
    simpa using h

/-- Ideal-ness characterizes the Ideal-Number singleton. -/
theorem isIdeal_eq_idealNumber {t : TypeExpr} (h : t.isIdeal = true) :
    t = TypeExprIdealNumber := by
  cases t with
  | idealNumber => rfl
  | named name imin emax => simp [TypeExpr.isIdeal] at h
  | ptr inner => simp [TypeExpr.isIdeal] at h
  | arr len inner => simp [TypeExpr.isIdeal] at h

/-- C5: for every successfully checked binary expression (other than the
`as` cast, which is a different node form), the annotated result type is
Boolean for the comparison operators; otherwise it is the left operand's
type when that is not Ideal-Number, the right operand's type when the left
is Ideal-Number, and Ideal-Number when both operands are Ideal-Number. -/
theorem c5_binary_result_type :
    ∀ (tm : TypeMap) (op : BinOp) (lhs rhs : Expr) (ann la ra : Annot),
      checkExpr tm (.binary op lhs rhs) = .ok ann →
      checkExpr tm lhs = .ok la → checkExpr tm rhs = .ok ra →
      (isComparisonOp op = true → ann.mtype = TypeExprBoolean) ∧
      (isComparisonOp op = false → la.mtype.isIdeal = false → ann.mtype = la.mtype) ∧
      (isComparisonOp op = false → la.mtype.isIdeal = true → ann.mtype = ra.mtype) ∧
      (isComparisonOp op = false → la.mtype.isIdeal = true → ra.mtype.isIdeal = true →
        ann.mtype = TypeExprIdealNumber) := by
  intro tm op lhs rhs ann la ra h hl hr
  simp only [checkExpr, hl, hr] at h
  have hm := (checkBinOpRest_ok_inv h).2.2
  unfold binOpResultType at hm
  refine ⟨?_, ?_, ?_, ?_⟩
  · intro hc
    rw [hm, if_pos hc]
  · intro hc hi
    rw [hm, if_neg (by simp [hc]), if_pos (by simp [hi])]
  · intro hc hi
    rw [hm, if_neg (by simp [hc]), if_neg (by simp [hi])]
  · intro hc hi hri
    rw [hm, if_neg (by simp [hc]), if_neg (by simp [hi])]
    exact isIdeal_eq_idealNumber hri

/-- C5 witness: the result-type facts instantiated at the comparison
`1 < 2`, whose annotated type is Boolean. -/
theorem c5_witness :
    (isComparisonOp .lessThan = true → TypeExprBoolean = TypeExprBoolean) ∧
    (isComparisonOp .lessThan = false →
      TypeExpr.isIdeal TypeExprIdealNumber = false → TypeExprBoolean = TypeExprIdealNumber) ∧
    (isComparisonOp .lessThan = false →
      TypeExpr.isIdeal TypeExprIdealNumber = true → TypeExprBoolean = TypeExprIdealNumber) ∧
    (isComparisonOp .lessThan = false →
      TypeExpr.isIdeal TypeExprIdealNumber = true →
      TypeExpr.isIdeal TypeExprIdealNumber = true →
      TypeExprBoolean = TypeExprIdealNumber) :=
  c5_binary_result_type [] .lessThan (.litNum "1") (.litNum "2")
    ⟨TypeExprBoolean, some 1⟩ ⟨TypeExprIdealNumber, some 1⟩
    ⟨TypeExprIdealNumber, some 2⟩ rfl rfl rfl

/-- Facts about rendered digit characters: `digitVal` inverts
`Nat.digitChar` below 16, and a rendered digit is not an underscore, sign,
or (when nonzero) the octal-prefix character. -/
theorem digitChar_facts (d : Nat) (hd : d < 16) :
    digitVal (Nat.digitChar d) = some d ∧ Nat.digitChar d ≠ '_' ∧
    Nat.digitChar d ≠ '+' ∧ Nat.digitChar d ≠ '-' ∧
    (0 < d → Nat.digitChar d ≠ '0') := by
  interval_cases d <;> decide

/-- Scanning a rendered digit run accumulates its positional value. -/
theorem scanDigits_renderDigits (base : Nat) (hb : base ≤ 16) :
    ∀ (l : List Nat) (acc : Nat), (∀ x ∈ l, x < base) →
      scanDigits base (renderDigits l) acc true true =
        some (l.foldl (fun a d => a * base + d) acc) := by
  intro l
  induction l with
  | nil => intro acc h; rfl
  | cons x rest ih =>
    intro acc h
    have hx : x < base := h x (by simp)
    obtain ⟨hdv, hund, -, -, -⟩ := digitChar_facts x (lt_of_lt_of_le hx hb)
    show scanDigits base (Nat.digitChar x :: renderDigits rest) acc true true = _
    rw [scanDigits, if_neg hund, hdv]
    simp only [if_pos hx, List.foldl_cons]
    exact ih (acc * base + x) (fun y hy => h y (by simp [hy]))

/-- C4: a literal whose text parses is annotated with type Ideal-Number and
the parsed constant; a malformed literal text is rejected with
InvalidLiteral; and the parsed value is the literal's mathematical
(positional) value both for decimal digit strings (leading digit nonzero)
and for `0x`-prefixed hexadecimal digit strings. -/
theorem c4_numeric_literals :
    (∀ (tm : TypeMap) (s : String) (v : Int), parseNumLit s = some v →
      checkExpr tm (.litNum s) = .ok ⟨TypeExprIdealNumber, some v⟩) ∧
    (∀ (tm : TypeMap) (s : String), parseNumLit s = none →
      checkExpr tm (.litNum s) = .error (.invalidLiteral s)) ∧
    (∀ (d : Nat) (l : List Nat), 0 < d → d < 10 → (∀ x ∈ l, x < 10) →
      parseNumLit (String.mk (renderDigits (d :: l))) =
        some ((digitsVal 10 (d :: l) : Nat) : Int)) ∧
    (∀ (d : Nat) (l : List Nat), d < 16 → (∀ x ∈ l, x < 16) →
      parseNumLit (String.mk ('0' :: 'x' :: renderDigits (d :: l))) =
        some ((digitsVal 16 (d :: l) : Nat) : Int)) := by
  refine ⟨?_, ?_, ?_, ?_⟩
  · intro tm s v h
    simp only [checkExpr, h]
  · intro tm s h
    simp only [checkExpr, h]
  · intro d l hd0 hd10 hl
    obtain ⟨hdv, hund, hplus, hminus, h0⟩ := digitChar_facts d (by omega)
    have hdata : (String.mk (renderDigits (d :: l))).data =
        Nat.digitChar d :: renderDigits l := by
      simp [renderDigits]
    rw [parseNumLit, hdata]
    rw [parseNumLitChars, if_neg hplus, if_neg hminus]
    simp only [parseNumDigits]
    rw [if_neg (h0 hd0)]
    rw [scanDigits, if_neg hund, hdv]
    simp only [if_pos hd10]
    rw [scanDigits_renderDigits 10 (by norm_num) l (0 * 10 + d) hl]
    simp [digitsVal]
  · intro d l hd16 hl
    obtain ⟨hdv, hund, -, -, -⟩ := digitChar_facts d hd16
    have hdata : (String.mk ('0' :: 'x' :: renderDigits (d :: l))).data =
        '0' :: 'x' :: Nat.digitChar d :: renderDigits l := by
      simp [renderDigits]
    have hpx : parseNumDigits ('0' :: 'x' :: Nat.digitChar d :: renderDigits l) =
        scanDigits 16 (Nat.digitChar d :: renderDigits l) 0 false true := by
      simp [parseNumDigits]
    rw [parseNumLit, hdata]
    rw [parseNumLitChars, if_neg (by decide), if_neg (by decide)]
    rw [hpx]
    rw [scanDigits, if_neg hund, hdv]
    simp only [if_pos hd16]
    rw [scanDigits_renderDigits 16 (by norm_num) l (0 * 16 + d) hl]
    simp [digitsVal]

/-- C4 witness: `42` checks to Ideal-Number constant 42, `9z` is rejected as
an invalid literal, and the decimal digits `4,2` and hex digits `2,a` parse
to their positional values. -/
theorem c4_witness :
    checkExpr [] (.litNum "42") = .ok ⟨TypeExprIdealNumber, some 42⟩ ∧
    checkExpr [] (.litNum "9z") = .error (.invalidLiteral "9z") ∧
    parseNumLit (String.mk (renderDigits [4, 2])) =
      some ((digitsVal 10 [4, 2] : Nat) : Int) ∧
    parseNumLit (String.mk ('0' :: 'x' :: renderDigits [2, 10])) =
      some ((digitsVal 16 [2, 10] : Nat) : Int) :=
  ⟨c4_numeric_literals.1 [] "42" 42 rfl,
    c4_numeric_literals.2.1 [] "9z" rfl,
    c4_numeric_literals.2.2.1 4 [2] (by norm_num) (by norm_num) (by decide),
    c4_numeric_literals.2.2.2 2 [10] (by norm_num) (by decide)⟩

mutual
/-- Scope-map entries present before `checkVars` runs on a statement are
still present, unchanged, afterwards (insertion never overwrites). -/
theorem checkVars_preserves (tm : TypeMap) (s : Stmt) (tm' : TypeMap)
    (h : checkVars tm s = .ok tm') (k : Nat) (v : TypeExpr)
    (hk : tmLookup tm k = some v) : tmLookup tm' k = some v := by
  cases s with
  | svar name xtype value =>
    simp only [checkVars] at h
    cases hn : tmLookup tm name with
    | some t0 => simp [hn] at h
    | none =>
      simp only [hn, Option.isSome_none, Bool.false_eq_true, if_false] at h
      cases ht : checkTypeExpr tm xtype with
      | error e => simp only [ht] at h; cases h
      | ok u =>
        simp only [ht] at h
        cases h
        rw [tmLookup]
        by_cases hkn : name = k
        · subst hkn
          rw [hn] at hk
          cases hk
        · rw [if_neg hkn]
          exact hk
  | swhile cond body =>
    simp only [checkVars] at h
    exact checkVarsList_preserves tm body tm' h k v hk
  | sif chain =>
    simp only [checkVars] at h
    exact checkVarsIf_preserves tm chain tm' h k v hk
  | assert cond => simp only [checkVars] at h; cases h; exact hk
  | assign op lhs rhs => simp only [checkVars] at h; cases h; exact hk
  | ret value => simp only [checkVars] at h; cases h; exact hk
  | brk => simp only [checkVars] at h; cases h; exact hk
  | cont => simp only [checkVars] at h; cases h; exact hk

/-- `checkVars_preserves` over a statement list. -/
theorem checkVarsList_preserves (tm : TypeMap) (l : List Stmt) (tm' : TypeMap)
    (h : checkVarsList tm l = .ok tm') (k : Nat) (v : TypeExpr)
    (hk : tmLookup tm k = some v) : tmLookup tm' k = some v := by
  cases l with
  | nil => simp only [checkVarsList] at h; cases h; exact hk
  | cons s rest =>
    simp only [checkVarsList] at h
    cases h1 : checkVars tm s with
    | error e => simp only [h1] at h; cases h
    | ok tm2 =>
      simp only [h1] at h
      exact checkVarsList_preserves tm2 rest tm' h k v
        (checkVars_preserves tm s tm2 h1 k v hk)

/-- `checkVars_preserves` over an if-chain. -/
theorem checkVarsIf_preserves (tm : TypeMap) (node : IfNode) (tm' : TypeMap)
    (h : checkVarsIf tm node = .ok tm') (k : Nat) (v : TypeExpr)
    (hk : tmLookup tm k = some v) : tmLookup tm' k = some v := by
  cases node with
  | mk cond bodyIfTrue bodyIfFalse elseIf =>
    simp only [checkVarsIf] at h
    cases h1 : checkVarsList tm bodyIfTrue with
    | error e => simp only [h1] at h; cases h
    | ok tm2 =>
      simp only [h1] at h
      exact checkVarsList_preserves tm2 bodyIfFalse tm' h k v
        (checkVarsList_preserves tm bodyIfTrue tm2 h1 k v hk)
end

/-- C6: a variable declaration whose name is already in the scope map fails
with DuplicateDeclaration (even when the declared type is identical, since
the duplicate test runs before the type is examined); on success the name is
inserted exactly once, and existing entries are never overwritten by any
later processing of the pass. -/
theorem c6_duplicate_declaration :
    (∀ (tm : TypeMap) (name : Nat) (xtype : TypeExpr) (value : Option Expr)
        (t0 : TypeExpr),
      tmLookup tm name = some t0 →
      checkVars tm (.svar name xtype value) = .error (.duplicateDeclaration name)) ∧
    (∀ (tm : TypeMap) (name : Nat) (xtype : TypeExpr) (value : Option Expr),
      tmLookup tm name = none → checkTypeExpr tm xtype = .ok () →
      checkVars tm (.svar name xtype value) = .ok ((name, xtype) :: tm) ∧
      tmLookup ((name, xtype) :: tm) name = some xtype) ∧
    (∀ (tm : TypeMap) (s : Stmt) (tm' : TypeMap),
      checkVars tm s = .ok tm' →
      ∀ (k : Nat) (v : TypeExpr), tmLookup tm k = some v → tmLookup tm' k = some v) := by
  refine ⟨?_, ?_, ?_⟩
  · intro tm name xtype value t0 h
    simp [checkVars, h]
  · intro tm name xtype value hnone hok
    constructor
    · simp only [checkVars, hnone, Option.isSome_none, Bool.false_eq_true, if_false, hok]
    · rw [tmLookup, if_pos rfl]
  · exact fun tm s tm' h k v hk => checkVars_preserves tm s tm' h k v hk

/-- C6 witness: `var x : u8; var x : u8` (identical type) rejected; a fresh
declaration inserts its entry; an unrelated statement preserves it. -/
theorem c6_witness :
    checkVars [(0, TypeExpr.named .u8 none none)]
        (.svar 0 (TypeExpr.named .u8 none none) none) =
      .error (.duplicateDeclaration 0) ∧
    (checkVars [] (.svar 0 (TypeExpr.named .u8 none none) none) =
        .ok [(0, TypeExpr.named .u8 none none)] ∧
      tmLookup [(0, TypeExpr.named .u8 none none)] 0 =
        some (TypeExpr.named .u8 none none)) ∧
    tmLookup [(0, TypeExpr.named .u8 none none)] 0 =
      some (TypeExpr.named .u8 none none) :=
  ⟨c6_duplicate_declaration.1 [(0, TypeExpr.named .u8 none none)] 0
      (TypeExpr.named .u8 none none) none (TypeExpr.named .u8 none none) rfl,
    c6_duplicate_declaration.2.1 [] 0 (TypeExpr.named .u8 none none) none rfl rfl,
    c6_duplicate_declaration.2.2 [(0, TypeExpr.named .u8 none none)] .brk
      [(0, TypeExpr.named .u8 none none)] rfl 0 (TypeExpr.named .u8 none none) rfl⟩

mutual
/-- Every name declared anywhere inside a statement is present in the map
after a successful `checkVars` pass over that statement. -/
theorem checkVars_mem (tm : TypeMap) (s : Stmt) (tm' : TypeMap)
    (h : checkVars tm s = .ok tm') (n : Nat) (hn : n ∈ declaredVars s) :
    ∃ t, tmLookup tm' n = some t := by
  cases s with
  | svar name xtype value =>
    simp only [declaredVars, List.mem_singleton] at hn
    subst hn
    simp only [checkVars] at h
    cases hl : tmLookup tm n with
    | some t0 => simp [hl] at h
    | none =>
      simp only [hl, Option.isSome_none, Bool.false_eq_true, if_false] at h
      cases ht : checkTypeExpr tm xtype with
      | error e => simp only [ht] at h; cases h
      | ok u =>
        simp only [ht] at h
        cases h
        exact ⟨xtype, by rw [tmLookup, if_pos rfl]⟩
  | swhile cond body =>
    simp only [checkVars] at h
    simp only [declaredVars] at hn
    exact checkVarsList_mem tm body tm' h n hn
  | sif chain =>
    simp only [checkVars] at h
    simp only [declaredVars] at hn
    exact checkVarsIf_mem tm chain tm' h n hn
  | assert cond => simp only [declaredVars, List.not_mem_nil] at hn
  | assign op lhs rhs => simp only [declaredVars, List.not_mem_nil] at hn
  | ret value => simp only [declaredVars, List.not_mem_nil] at hn
  | brk => simp only [declaredVars, List.not_mem_nil] at hn
  | cont => simp only [declaredVars, List.not_mem_nil] at hn

/-- `checkVars_mem` over a statement list. -/
theorem checkVarsList_mem (tm : TypeMap) (l : List Stmt) (tm' : TypeMap)
    (h : checkVarsList tm l = .ok tm') (n : Nat) (hn : n ∈ declaredVarsList l) :
    ∃ t, tmLookup tm' n = some t := by
  cases l with
  | nil => simp only [declaredVarsList, List.not_mem_nil] at hn
  | cons s rest =>
    simp only [checkVarsList] at h
    cases h1 : checkVars tm s with
    | error e => simp only [h1] at h; cases h
    | ok tm2 =>
      simp only [h1] at h
      simp only [declaredVarsList, List.mem_append] at hn
      cases hn with
      | inl hmem =>
        obtain ⟨t, ht⟩ := checkVars_mem tm s tm2 h1 n hmem
        exact ⟨t, checkVarsList_preserves tm2 rest tm' h n t ht⟩
      | inr hmem => exact checkVarsList_mem tm2 rest tm' h n hmem

/-- `checkVars_mem` over an if-chain. -/
theorem checkVarsIf_mem (tm : TypeMap) (node : IfNode) (tm' : TypeMap)
    (h : checkVarsIf tm node = .ok tm') (n : Nat) (hn : n ∈ declaredVarsIf node) :
    ∃ t, tmLookup tm' n = some t := by
  cases node with
  | mk cond bodyIfTrue bodyIfFalse elseIf =>
    simp only [checkVarsIf] at h
    cases h1 : checkVarsList tm bodyIfTrue with
    | error e => simp only [h1] at h; cases h
    | ok tm2 =>
      simp only [h1] at h
      simp only [declaredVarsIf, List.mem_append] at hn
      cases hn with
      | inl hmem =>
        obtain ⟨t, ht⟩ := checkVarsList_mem tm bodyIfTrue tm2 h1 n hmem
        exact ⟨t, checkVarsList_preserves tm2 bodyIfFalse tm' h n t ht⟩
      | inr hmem => exact checkVarsList_mem tm2 bodyIfFalse tm' h n hmem
end

mutual
/-- A name already mapped collides with a declaration of the same name
anywhere inside a statement: `checkVars` cannot succeed on it. -/
theorem checkVars_collides (tm : TypeMap) (s : Stmt) (n : Nat) (t : TypeExpr)
    (hl : tmLookup tm n = some t) (hn : n ∈ declaredVars s) :
    ∀ tm', checkVars tm s ≠ .ok tm' := by
  intro tm' hcontra
  cases s with
  | svar name xtype value =>
    simp only [declaredVars, List.mem_singleton] at hn
    subst hn
    simp [checkVars, hl] at hcontra
  | swhile cond body =>
    simp only [checkVars] at hcontra
    simp only [declaredVars] at hn
    exact checkVarsList_collides tm body n t hl hn tm' hcontra
  | sif chain =>
    simp only [checkVars] at hcontra
    simp only [declaredVars] at hn
    exact checkVarsIf_collides tm chain n t hl hn tm' hcontra
  | assert cond => simp only [declaredVars, List.not_mem_nil] at hn
  | assign op lhs rhs => simp only [declaredVars, List.not_mem_nil] at hn
  | ret value => simp only [declaredVars, List.not_mem_nil] at hn
  | brk => simp only [declaredVars, List.not_mem_nil] at hn
  | cont => simp only [declaredVars, List.not_mem_nil] at hn

/-- `checkVars_collides` over a statement list. -/
theorem checkVarsList_collides (tm : TypeMap) (l : List Stmt) (n : Nat)
    (t : TypeExpr) (hl : tmLookup tm n = some t) (hn : n ∈ declaredVarsList l) :
    ∀ tm', checkVarsList tm l ≠ .ok tm' := by
  intro tm' hcontra
  cases l with
  | nil => simp only [declaredVarsList, List.not_mem_nil] at hn
  | cons s rest =>
    simp only [checkVarsList] at hcontra
    cases h1 : checkVars tm s with
    | error e => simp only [h1] at hcontra; cases hcontra
    | ok tm2 =>
      simp only [h1] at hcontra
      simp only [declaredVarsList, List.mem_append] at hn
      cases hn with
      | inl hmem => exact checkVars_collides tm s n t hl hmem tm2 h1
      | inr hmem =>
        exact checkVarsList_collides tm2 rest n t
          (checkVars_preserves tm s tm2 h1 n t hl) hmem tm' hcontra

/-- `checkVars_collides` over an if-chain. -/
theorem checkVarsIf_collides (tm : TypeMap) (node : IfNode) (n : Nat)
    (t : TypeExpr) (hl : tmLookup tm n = some t) (hn : n ∈ declaredVarsIf node) :
    ∀ tm', checkVarsIf tm node ≠ .ok tm' := by
  intro tm' hcontra
  cases node with
  | mk cond bodyIfTrue bodyIfFalse elseIf =>
    simp only [checkVarsIf] at hcontra
    cases h1 : checkVarsList tm bodyIfTrue with
    | error e => simp only [h1] at hcontra; cases hcontra
    | ok tm2 =>
      simp only [h1] at hcontra
      simp only [declaredVarsIf, List.mem_append] at hn
      cases hn with
      | inl hmem => exact checkVarsList_collides tm bodyIfTrue n t hl hmem tm2 h1
      | inr hmem =>
        exact checkVarsList_collides tm2 bodyIfFalse n t
          (checkVarsList_preserves tm bodyIfTrue tm2 h1 n t hl) hmem tm' hcontra
end

/-- C9 counterexample: a declaration inside a chained else-if body is not
visited by the variable-collection pass — the pass succeeds leaving the map
empty (so the name is not hoisted and not visible for identifier lookup),
and the same declaration does not collide with an existing entry of the same
name, contradicting "anywhere in that function". -/
theorem c9_counterexample :
    checkVars []
        (.sif (.mk .litTrue [] []
          (some (.mk .litTrue [.svar 5 (TypeExpr.named .u8 none none) none] [] none)))) =
      .ok [] ∧
    tmLookup [] 5 = none ∧
    checkExpr [] (.ident 5) = .error (.unboundIdentifier 5) ∧
    checkVars [(5, TypeExpr.named .u8 none none)]
        (.sif (.mk .litTrue [] []
          (some (.mk .litTrue [.svar 5 (TypeExpr.named .u8 none none) none] [] none)))) =
      .ok [(5, TypeExpr.named .u8 none none)] :=
  ⟨rfl, rfl, rfl, rfl⟩

/-- C9 (amended): the variable-collection pass recurses into the nested
statement lists — `while` bodies and `if` true/false bodies, at any depth —
so every declaration in that visited region is hoisted into the single
function-wide scope map, is visible for identifier lookup, and collides with
any already-mapped name; the node-valued else-if link is not part of the
sub-lists, so the pass's result is independent of it and declarations inside
else-if bodies are neither hoisted nor collide. -/
theorem c9_variable_hoisting :
    (∀ (tm : TypeMap) (s : Stmt) (tm' : TypeMap),
      checkVars tm s = .ok tm' →
      ∀ n ∈ declaredVars s, ∃ t, tmLookup tm' n = some t) ∧
    (∀ (tm : TypeMap) (n : Nat) (t : TypeExpr),
      tmLookup tm n = some t → checkExpr tm (.ident n) = .ok ⟨t, none⟩) ∧
    (∀ (tm : TypeMap) (s : Stmt) (n : Nat) (t : TypeExpr),
      tmLookup tm n = some t → n ∈ declaredVars s →
      ∀ tm', checkVars tm s ≠ .ok tm') ∧
    (∀ (tm : TypeMap) (cond : Expr) (bodyIfTrue bodyIfFalse : List Stmt)
        (e1 e2 : Option IfNode),
      checkVars tm (.sif (.mk cond bodyIfTrue bodyIfFalse e1)) =
        checkVars tm (.sif (.mk cond bodyIfTrue bodyIfFalse e2))) := by
  refine ⟨?_, ?_, ?_, ?_⟩
  · exact fun tm s tm' h n hn => checkVars_mem tm s tm' h n hn
  · intro tm n t h
    simp only [checkExpr, h]
  · exact fun tm s n t h hn => checkVars_collides tm s n t h hn
  · intro tm cond bodyIfTrue bodyIfFalse e1 e2
    rfl

/-- C9 witness: a declaration inside a `while` body (a visited statement
list) is hoisted into the map, is visible as an identifier, and collides
with an existing entry. -/
theorem c9_witness :
    (∃ t, tmLookup [(5, TypeExpr.named .u8 none none)] 5 = some t) ∧
    checkExpr [(5, TypeExpr.named .u8 none none)] (.ident 5) =
      .ok ⟨TypeExpr.named .u8 none none, none⟩ ∧
    (∀ tm', checkVars [(5, TypeExpr.named .u8 none none)]
        (.swhile none [.svar 5 (TypeExpr.named .u8 none none) none]) ≠ .ok tm') :=
  ⟨c9_variable_hoisting.1 []
      (.swhile none [.svar 5 (TypeExpr.named .u8 none none) none])
      [(5, TypeExpr.named .u8 none none)] rfl 5 (by decide),
    c9_variable_hoisting.2.1 [(5, TypeExpr.named .u8 none none)] 5
      (TypeExpr.named .u8 none none) rfl,
    c9_variable_hoisting.2.2.1 [(5, TypeExpr.named .u8 none none)]
      (.swhile none [.svar 5 (TypeExpr.named .u8 none none) none]) 5
      (TypeExpr.named .u8 none none) rfl (by decide)⟩

/-- A successful Boolean-condition check exposes the condition's annotation,
whose type is the Boolean singleton. -/
theorem checkCondBoolean_ok_inv {tm : TypeMap} {cond : Expr}
    (h : checkCondBoolean tm cond = .ok ()) :
    ∃ ann, checkExpr tm cond = .ok ann ∧
      beqTypeExpr ann.mtype TypeExprBoolean = true := by
  unfold checkCondBoolean at h
  cases he : checkExpr tm cond with
  | error e => simp only [he] at h; cases h
  | ok ann =>
    simp only [he] at h
    by_cases hb : beqTypeExpr ann.mtype TypeExprBoolean = true
    · exact ⟨ann, rfl, hb⟩
    · rw [if_neg (by simpa using hb)] at h
      cases h

/-- Every condition of a successfully checked if/else-if chain checks to the
Boolean singleton. -/
theorem checkIfNode_conds_boolean : ∀ (tm : TypeMap) (node : IfNode),
    checkIfNode tm node = .ok () →
    ∀ c ∈ chainConds node,
      ∃ ann, checkExpr tm c = .ok ann ∧
        beqTypeExpr ann.mtype TypeExprBoolean = true
  | tm, .mk cond bodyIfTrue bodyIfFalse elseIf, h, c, hc => by
    simp only [checkIfNode] at h
    cases h1 : checkCondBoolean tm cond with
    | error e => simp only [h1] at h; cases h
    | ok u =>
      cases u
      simp only [h1] at h
      cases h2 : checkStmtList tm bodyIfTrue with
      | error e => simp only [h2] at h; cases h
      | ok u2 =>
        cases u2
        simp only [h2] at h
        cases h3 : checkStmtList tm bodyIfFalse with
        | error e => simp only [h3] at h; cases h
        | ok u3 =>
          cases u3
          simp only [h3] at h
          simp only [chainConds, List.mem_cons] at hc
          cases hc with
          | inl hh =>
            subst hh
            exact checkCondBoolean_ok_inv h1
          | inr hh =>
            cases elseIf with
            | none => simp only [chainCondsOpt, List.not_mem_nil] at hh
            | some next =>
              simp only [checkIfNodeOpt] at h
              simp only [chainCondsOpt] at hh
              exact checkIfNode_conds_boolean tm next h c hh

/-- C7: an assert condition, a while-loop condition, and the condition of an
if node must check to exactly the Boolean singleton type — any other
condition type (for example the Ideal-Number literal in `if 1 { }`) yields a
NotBoolean error; a Boolean assert condition is accepted, and every
condition in a successfully checked if/else-if chain is Boolean. -/
theorem c7_conditions_boolean :
    (∀ (tm : TypeMap) (cond : Expr) (ann : Annot),
      checkExpr tm cond = .ok ann →
      beqTypeExpr ann.mtype TypeExprBoolean = false →
      checkStatement tm (.assert cond) = .error .notBoolean ∧
      (∀ body, checkStatement tm (.swhile (some cond) body) = .error .notBoolean) ∧
      (∀ bodyIfTrue bodyIfFalse elseIf,
        checkStatement tm (.sif (.mk cond bodyIfTrue bodyIfFalse elseIf)) =
          .error .notBoolean)) ∧
    (∀ (tm : TypeMap) (cond : Expr) (ann : Annot),
      checkExpr tm cond = .ok ann →
      beqTypeExpr ann.mtype TypeExprBoolean = true →
      checkStatement tm (.assert cond) = .ok ()) ∧
    (∀ (tm : TypeMap) (node : IfNode),
      checkIfNode tm node = .ok () →
      ∀ c ∈ chainConds node,
        ∃ ann, checkExpr tm c = .ok ann ∧
          beqTypeExpr ann.mtype TypeExprBoolean = true) := by
  refine ⟨?_, ?_, ?_⟩
  · intro tm cond ann h hb
    have hcb : checkCondBoolean tm cond = .error .notBoolean := by
      unfold checkCondBoolean
      rw [h]
      simp [hb]
    refine ⟨?_, ?_, ?_⟩
    · simp only [checkStatement, hcb]
    · intro body
      simp only [checkStatement, hcb]
    · intro bodyIfTrue bodyIfFalse elseIf
      simp only [checkStatement, checkIfNode, hcb]
  · intro tm cond ann h hb
    have hcb : checkCondBoolean tm cond = .ok () := by
      unfold checkCondBoolean
      rw [h]
      simp [hb]
    simp only [checkStatement, hcb]
  · exact fun tm node h c hc => checkIfNode_conds_boolean tm node h c hc

/-- C7 witness: `if 1 { }`-style conditions (the Ideal-Number literal `1`)
rejected as NotBoolean in assert, while and if positions; `assert true`
accepted; the conditions of a checked chain are Boolean. -/
theorem c7_witness :
    checkStatement [] (.assert (.litNum "1")) = .error .notBoolean ∧
    checkStatement [] (.swhile (some (.litNum "1")) []) = .error .notBoolean ∧
    checkStatement [] (.sif (.mk (.litNum "1") [] [] none)) = .error .notBoolean ∧
    checkStatement [] (.assert .litTrue) = .ok () ∧
    (∀ c ∈ chainConds (.mk .litTrue [] [] none),
      ∃ ann, checkExpr [] c = .ok ann ∧
        beqTypeExpr ann.mtype TypeExprBoolean = true) := by
  have h1 := c7_conditions_boolean.1 [] (.litNum "1")
    ⟨TypeExprIdealNumber, some 1⟩ rfl rfl
  exact ⟨h1.1, h1.2.1 [], h1.2.2 [] [] none,
    c7_conditions_boolean.2.1 [] .litTrue ⟨TypeExprBoolean, some 1⟩ rfl rfl,
    c7_conditions_boolean.2.2 [] (.mk .litTrue [] [] none) rfl⟩

/-- C8: a refinement bound (inclusive-min or exclusive-max) on a
numeric/Boolean terminal that checks without a constant value is rejected
with NotConstant, as is a non-constant array length; the pointer decorator
just recurses into the inner type; and a terminal name that is neither
numeric nor Boolean is rejected as not a type. -/
theorem c8_type_expr_checks :
    (∀ (tm : TypeMap) (name : TName) (b : Expr) (ann : Annot) (emax : Option Expr),
      (name.IsNumType ∨ name = TName.bool) →
      checkExpr tm b = .ok ann → ann.cv = none →
      checkTypeExpr tm (.named name (some b) emax) = .error .notConstant) ∧
    (∀ (tm : TypeMap) (name : TName) (b : Expr) (ann : Annot),
      (name.IsNumType ∨ name = TName.bool) →
      checkExpr tm b = .ok ann → ann.cv = none →
      checkTypeExpr tm (.named name none (some b)) = .error .notConstant) ∧
    (∀ (tm : TypeMap) (len : Expr) (inner : TypeExpr) (ann : Annot),
      checkExpr tm len = .ok ann → ann.cv = none →
      checkTypeExpr tm (.arr len inner) = .error .notConstant) ∧
    (∀ (tm : TypeMap) (inner : TypeExpr),
      checkTypeExpr tm (.ptr inner) = checkTypeExpr tm inner) ∧
    (∀ (tm : TypeMap) (name : TName) (inclMin exclMax : Option Expr),
      ¬(name.IsNumType ∨ name = TName.bool) →
      checkTypeExpr tm (.named name inclMin exclMax) = .error .notAType) := by
  refine ⟨?_, ?_, ?_, ?_, ?_⟩
  · intro tm name b ann emax hname hb hcv
    have hbb : checkBound tm (some b) = .error .notConstant := by
      simp only [checkBound, hb, hcv, if_pos]
    simp only [checkTypeExpr, if_pos hname, hbb]
  · intro tm name b ann hname hb hcv
    have hnone : checkBound tm none = .ok () := rfl
    have hbb : checkBound tm (some b) = .error .notConstant := by
      simp only [checkBound, hb, hcv, if_pos]
    simp only [checkTypeExpr, if_pos hname, hnone, hbb]
  · intro tm len inner ann hlen hcv
    simp only [checkTypeExpr, hlen, hcv, if_pos]
  · intro tm inner
    rfl
  · intro tm name inclMin exclMax hname
    simp only [checkTypeExpr, if_neg hname]

/-- C8 witness: a non-constant bound (a `u8` variable) in either bound slot
and as an array length is rejected as NotConstant; a pointer to `u8` checks
like `u8`; the non-type name is rejected. -/
theorem c8_witness :
    checkTypeExpr [(0, TypeExpr.named .u8 none none)]
        (.named .u8 (some (.ident 0)) none) = .error .notConstant ∧
    checkTypeExpr [(0, TypeExpr.named .u8 none none)]
        (.named .u8 none (some (.ident 0))) = .error .notConstant ∧
    checkTypeExpr [(0, TypeExpr.named .u8 none none)]
        (.arr (.ident 0) (.named .u8 none none)) = .error .notConstant ∧
    checkTypeExpr [] (.ptr (.named .u8 none none)) =
      checkTypeExpr [] (.named .u8 none none) ∧
    checkTypeExpr [] (.named (.ident 7) none none) = .error .notAType :=
  ⟨c8_type_expr_checks.1 [(0, TypeExpr.named .u8 none none)] .u8 (.ident 0)
      ⟨TypeExpr.named .u8 none none, none⟩ none (Or.inl rfl) rfl rfl,
    c8_type_expr_checks.2.1 [(0, TypeExpr.named .u8 none none)] .u8 (.ident 0)
      ⟨TypeExpr.named .u8 none none, none⟩ (Or.inl rfl) rfl rfl,
    c8_type_expr_checks.2.2.1 [(0, TypeExpr.named .u8 none none)] (.ident 0)
      (.named .u8 none none) ⟨TypeExpr.named .u8 none none, none⟩ rfl rfl,
    c8_type_expr_checks.2.2.2.1 [] (.named .u8 none none),
    c8_type_expr_checks.2.2.2.2 [] (.ident 7) none none (by decide)⟩

end PuffsCheck
